import Mathlib

/-!
A verification model of the transit.sh file-transfer relay core.

Pure Lean embeddings of:
* the per-transfer Redis chunk queue (`lib/store.py`: `put_in_queue` via LPUSH,
  `get_from_queue` via BRPOP),
* the upload and download loops (`lib/transfer.py`: `collect_upload`,
  `supply_download`) with the DONE / DEAD sentinel protocol,
* the metadata claim-and-verify and the single-flight cleanup (`lib/store.py`),
* filename sanitisation and the JSON round-trip (`lib/metadata.py`),
* the ingress decision logic of `views/http.py` and `views/websockets.py`.

Concurrency, real time and TTL expiry are outside the model: the store is a
sequential association list, and each loop runs on an explicit list of the
chunks it would consume.
-/

namespace Transit

/-- A byte chunk.  Bytes are naturals; the bound 256 is irrelevant to the
claims and therefore not enforced by the type. -/
abbrev Chunk := List Nat

/-- Sentinel pushed when the sender finished (`FileTransfer.DONE_FLAG`, bytes 00 FF). -/
def DONE_FLAG : Chunk := [0x00, 0xFF]

/-- Sentinel pushed when the sender aborted (`FileTransfer.DEAD_FLAG`, bytes DE AD). -/
def DEAD_FLAG : Chunk := [0xDE, 0xAD]

/-- Total number of bytes in a list of chunks. -/
def chunksLen (l : List Chunk) : Nat := (l.map List.length).sum

/-- `Store.put_in_queue`: `LPUSH` inserts at the producer (left) end of the
Redis list.  Backpressure (the `maxsize` poll and the 20 s timeout) delays but
does not change the successful result, so the pure model is the insertion. -/
def put_in_queue (q : List Chunk) (data : Chunk) : List Chunk := data :: q

/-- `Store.get_from_queue`: `BRPOP` removes at the consumer (right) end; `none`
models the timeout raised when the queue stays empty. -/
def get_from_queue (q : List Chunk) : Option (Chunk × List Chunk) :=
  match q with
  | [] => none
  | c :: rest => some ((c :: rest).getLast (by simp), (c :: rest).dropLast)

/-- Push a list of chunks in order via `put_in_queue`. -/
def pushAll (q : List Chunk) (cs : List Chunk) : List Chunk := cs.foldl put_in_queue q

/-- Drain a queue by iterating `get_from_queue`; the fuel only bounds the
recursion and `q.length` is always enough. -/
def popAllFuel : Nat → List Chunk → List Chunk
  | 0, _ => []
  | fuel + 1, q =>
    match get_from_queue q with
    | none => []
    | some p => p.1 :: popAllFuel fuel p.2

/-- All chunks obtained by repeatedly calling `get_from_queue` until empty. -/
def popAll (q : List Chunk) : List Chunk := popAllFuel q.length q

/-- Result of one run of `FileTransfer.collect_upload`: the chunks pushed onto
the queue in order (payload chunks and the final sentinel), the value of
`bytes_uploaded`, and whether the `on_error` callback was invoked. -/
structure UploadRun where
  pushes : List Chunk
  bytes_uploaded : Nat
  onErrorCalled : Bool
deriving DecidableEq, Repr

/-- Loop body of `FileTransfer.collect_upload` (`lib/transfer.py` lines 97-134).
`cs` is the sequence of chunks the byte stream yields; `disconnects` records
whether reading past the end raises `ClientDisconnect`/`WebSocketDisconnect`;
`interrupted` is the value of the `interrupt:<uid>` store flag; `b` and `p`
accumulate `bytes_uploaded` and the pushed chunks.  The queue-full timeout
branch (which only calls `on_error`) needs a concurrent consumer and is not
reachable in this sequential model. -/
def collect_upload_aux (size : Nat) (disconnects interrupted : Bool)
    (b : Nat) (p : List Chunk) : List Chunk → UploadRun
  | [] =>
    if disconnects then
      ⟨p ++ [DEAD_FLAG], b, false⟩
    else if b < size then
      ⟨p ++ [DEAD_FLAG], b, false⟩
    else
      ⟨p ++ [DONE_FLAG], b, false⟩
  | c :: rest =>
    if c = [] then
      if b < size then ⟨p ++ [DEAD_FLAG], b, false⟩ else ⟨p ++ [DONE_FLAG], b, false⟩
    else if interrupted then
      ⟨p, b, true⟩
    else
      collect_upload_aux size disconnects interrupted (b + c.length) (p ++ [c]) rest

/-- `FileTransfer.collect_upload` on a stream that yields the chunks `cs`.
An empty chunk ends the loop; after the loop a short count pushes `DEAD_FLAG`
(the error has `propagate=True, shutdown=False`, so `on_error` is not called),
otherwise `DONE_FLAG` is pushed.  The interrupted error has `propagate=False,
shutdown=True`: nothing is pushed and `on_error` is called.  A disconnect
pushes `DEAD_FLAG` without calling `on_error`. -/
def collect_upload (size : Nat) (cs : List Chunk) (disconnects interrupted : Bool) : UploadRun :=
  collect_upload_aux size disconnects interrupted 0 [] cs

/-- How one run of `FileTransfer.supply_download` ends. -/
inductive DownloadOutcome where
  | doneClean
  | senderDisconnected
  | truncated
  | timeout
deriving DecidableEq, Repr

/-- Result of one run of `FileTransfer.supply_download`: the chunks yielded in
order, the value of `bytes_downloaded`, and whether `on_error` was invoked. -/
structure DownloadRun where
  yielded : List Chunk
  bytes_downloaded : Nat
  onErrorCalled : Bool
  outcome : DownloadOutcome
deriving DecidableEq, Repr

/-- Loop of `FileTransfer.supply_download` (`lib/transfer.py` lines 136-169).
`items` is the sequence of chunks `get_from_queue` returns; exhausting it
models the `BRPOP` timeout, whose `TimeoutError` handler calls `on_error`.
The `DEAD_FLAG` and short `DONE_FLAG` errors are `FileTransferError`s: their
handler only logs, so they stop the iteration without calling `on_error`. -/
def supply_download_aux (size : Nat) (b : Nat) (y : List Chunk) : List Chunk → DownloadRun
  | [] => ⟨y, b, true, .timeout⟩
  | c :: rest =>
    if c = DEAD_FLAG then
      ⟨y, b, false, .senderDisconnected⟩
    else if c = DONE_FLAG then
      if b < size then ⟨y, b, false, .truncated⟩ else ⟨y, b, false, .doneClean⟩
    else
      supply_download_aux size (b + c.length) (y ++ [c]) rest

/-- `FileTransfer.supply_download` run against the queue contents `items`
(oldest first), for a file of the given declared size. -/
def supply_download (size : Nat) (items : List Chunk) : DownloadRun :=
  supply_download_aux size 0 [] items

/-- Byte length of the longest sentinel-free prefix: the only chunks whose
lengths `supply_download` can ever count. -/
def prefixDataLen : List Chunk → Nat
  | [] => 0
  | c :: rest => if c = DEAD_FLAG ∨ c = DONE_FLAG then 0 else c.length + prefixDataLen rest

/-- A Redis key of this application.  The key strings have exactly these
shapes (`Store.key`, `Store.__init__`); since valid uids never contain `:`
or glob metacharacters, the structured form is faithful to string keys and to
the scan pattern `transfer:<uid>:*`. -/
inductive RKey where
  | transfer (uid : String) (slot : String)
  | cleanupLock (uid : String)
  | completed (uid : String)
  | interrupt (uid : String)
deriving DecidableEq, Repr

/-- A stored Redis value together with the TTL (`ex=` argument) it was last
written with; `none` means no expiry was attached. -/
structure REntry where
  value : String
  ttl : Option Nat
deriving DecidableEq, Repr

/-- The key-value part of Redis, as an association list where the first
binding of a key wins.  TTL expiry itself is not modelled. -/
abbrev RStore := List (RKey × REntry)

/-- `GET`: the stored string, if any. -/
def rget (s : RStore) (k : RKey) : Option String := (s.lookup k).map REntry.value

/-- `SET ... nx=True`: write only when the key is absent. -/
def rsetnx (s : RStore) (k : RKey) (v : String) (ttl : Option Nat) : RStore :=
  match s.lookup k with
  | some _ => s
  | none => (k, ⟨v, ttl⟩) :: s

/-- `SET` without `nx`: overwrite unconditionally. -/
def rset (s : RStore) (k : RKey) (v : String) (ttl : Option Nat) : RStore :=
  (k, ⟨v, ttl⟩) :: s.filter (fun p => decide (p.1 ≠ k))

/-- Does a key match the scan pattern `transfer:<uid>:*`? -/
def isTransferKeyOf (uid : String) : RKey → Bool
  | .transfer u _ => u == uid
  | _ => false

/-- `SCAN` with pattern `transfer:<uid>:*`: the keys of the transfer-slot
namespace of this uid, in store order. -/
def rscanTransfer (s : RStore) (uid : String) : List RKey :=
  (s.map Prod.fst).filter (isTransferKeyOf uid)

/-- `DELETE k1 k2 ...`: drop every binding of the given keys. -/
def rdel (s : RStore) (ks : List RKey) : RStore :=
  s.filter (fun p => decide (p.1 ∉ ks))

/-- `Store.set_metadata` (`lib/store.py` lines 104-111): claim-and-verify.
Write a random challenge with set-if-absent, read back; on a match overwrite
with the real metadata and a 300 s TTL, otherwise raise (`false` result).
The challenge is a parameter standing for `random.randbytes(8)`. -/
def set_metadata (s : RStore) (uid challenge metadata : String) : RStore × Bool :=
  let k := RKey.transfer uid ("metadata")
  let s1 := rsetnx s k challenge none
  if rget s1 k = some challenge then (rset s1 k metadata (some 300), true)
  else (s1, false)

/-- `Store.cleanup_started` (`lib/store.py` lines 149-158): challenge-and-verify
on the `cleanup:<uid>` lock with a 60 s TTL.  `true` means cleanup had already
been initiated by someone else. -/
def cleanup_started (s : RStore) (uid challenge : String) : RStore × Bool :=
  let s1 := rsetnx s (.cleanupLock uid) challenge (some 60)
  (s1, decide (rget s1 (.cleanupLock uid) ≠ some challenge))

/-- `Store.cleanup` (`lib/store.py` lines 160-178): losers of the lock return 0;
the winner scans `transfer:<uid>:*` and deletes the matches in one batch,
returning how many keys were deleted. -/
def cleanup (s : RStore) (uid challenge : String) : RStore × Nat :=
  let r := cleanup_started s uid challenge
  if r.2 then (r.1, 0)
  else
    let keys := rscanTransfer r.1 uid
    if keys.isEmpty then (r.1, 0) else (rdel r.1 keys, keys.length)

/-- Second-byte range a UTF-8 leader admits (RFC 3629; the special cases keep
out overlong forms, surrogates and values above U+10FFFF, exactly the
sequences Python's `utf-8` codec rejects). -/
def utf8Cont2OK (b1 b2 : Nat) : Bool :=
  if b1 = 0xE0 then 0xA0 ≤ b2 && b2 ≤ 0xBF
  else if b1 = 0xED then 0x80 ≤ b2 && b2 ≤ 0x9F
  else if b1 = 0xF0 then 0x90 ≤ b2 && b2 ≤ 0xBF
  else if b1 = 0xF4 then 0x80 ≤ b2 && b2 ≤ 0x8F
  else 0x80 ≤ b2 && b2 ≤ 0xBF

/-- Plain continuation-byte test. -/
def utf8ContOK (b : Nat) : Bool := 0x80 ≤ b && b ≤ 0xBF

/-- Python's `bytes.decode('utf-8', 'ignore')`, fuelled so that the recursion
is structural (every step consumes at least one byte, so the input length is
always enough fuel): decode to code points, skipping the maximal invalid
subpart at each error and resuming at the first byte that could start a new
sequence. -/
def utf8DecodeIgnoreFuel : Nat → List Nat → List Nat
  | 0, _ => []
  | _, [] => []
  | fuel + 1, b1 :: rest =>
    if b1 ≤ 0x7F then b1 :: utf8DecodeIgnoreFuel fuel rest
    else if b1 ≤ 0xC1 then utf8DecodeIgnoreFuel fuel rest
    else if b1 ≤ 0xDF then
      match rest with
      | [] => []
      | b2 :: rest2 =>
        if utf8ContOK b2 then
          ((b1 - 0xC0) * 0x40 + (b2 - 0x80)) :: utf8DecodeIgnoreFuel fuel rest2
        else utf8DecodeIgnoreFuel fuel (b2 :: rest2)
    else if b1 ≤ 0xEF then
      match rest with
      | [] => []
      | [b2] => if utf8Cont2OK b1 b2 then [] else utf8DecodeIgnoreFuel fuel [b2]
      | b2 :: b3 :: rest3 =>
        if utf8Cont2OK b1 b2 then
          if utf8ContOK b3 then
            ((b1 - 0xE0) * 0x1000 + (b2 - 0x80) * 0x40 + (b3 - 0x80))
              :: utf8DecodeIgnoreFuel fuel rest3
          else utf8DecodeIgnoreFuel fuel (b3 :: rest3)
        else utf8DecodeIgnoreFuel fuel (b2 :: b3 :: rest3)
    else if b1 ≤ 0xF4 then
      match rest with
      | [] => []
      | [b2] => if utf8Cont2OK b1 b2 then [] else utf8DecodeIgnoreFuel fuel [b2]
      | [b2, b3] =>
        if utf8Cont2OK b1 b2 then
          if utf8ContOK b3 then [] else utf8DecodeIgnoreFuel fuel [b3]
        else utf8DecodeIgnoreFuel fuel [b2, b3]
      | b2 :: b3 :: b4 :: rest4 =>
        if utf8Cont2OK b1 b2 then
          if utf8ContOK b3 then
            if utf8ContOK b4 then
              ((b1 - 0xF0) * 0x40000 + (b2 - 0x80) * 0x1000 + (b3 - 0x80) * 0x40 + (b4 - 0x80))
                :: utf8DecodeIgnoreFuel fuel rest4
            else utf8DecodeIgnoreFuel fuel (b4 :: rest4)
          else utf8DecodeIgnoreFuel fuel (b3 :: b4 :: rest4)
        else utf8DecodeIgnoreFuel fuel (b2 :: b3 :: b4 :: rest4)
    else utf8DecodeIgnoreFuel fuel rest

/-- Python's `bytes.decode('utf-8', 'ignore')` on a byte list. -/
def utf8DecodeIgnore (l : List Nat) : List Nat := utf8DecodeIgnoreFuel l.length l

/-- Python's `str.encode('latin-1', 'ignore')`: keep the code points that fit
one byte, drop the rest. -/
def latin1EncodeIgnore (cps : List Nat) : List Nat := cps.filter (fun c => c ≤ 0xFF)

/-- `FileMetadata.escape_filename` (`lib/metadata.py` lines 44-47):
`str(filename).encode('latin-1', 'ignore').decode('utf-8', 'ignore')`.
No characters are replaced and no length bound is enforced. -/
def escape_filename (filename : String) : String :=
  ⟨(utf8DecodeIgnore (latin1EncodeIgnore (filename.data.map Char.toNat))).map Char.ofNat⟩

/-- The `FileMetadata` dataclass of `lib/metadata.py` (fields `size`, `name`,
`content_type` in declaration order). -/
structure FileMetadata where
  size : Int
  name : String
  content_type : Option String
deriving DecidableEq, Repr

/-- JSON values, as far as `json.dumps`/`json.loads` needs them here. -/
inductive Json where
  | null
  | num (n : Int)
  | str (s : String)
  | obj (fields : List (String × Json))

/-- `FileMetadata.to_json`: `json.dumps(asdict(self))`, an object with exactly
the three dataclass fields.  Serialisation is modelled at the JSON-value level;
`json.dumps` and `json.loads` are mutually inverse on such values. -/
def FileMetadata.to_json (m : FileMetadata) : Json :=
  .obj [(("size"), .num m.size), (("name"), .str m.name),
        (("content_type"), match m.content_type with | none => .null | some t => .str t)]

/-- `FileMetadata.from_json`: `cls(**json.loads(data))`.  Keyword expansion
fails on a key that is not a dataclass field or when `size`/`name` is missing;
`content_type` defaults to `None`.  A value whose shape does not fit the typed
model is `none`. -/
def FileMetadata.from_json : Json → Option FileMetadata
  | .obj fields =>
    if fields.all (fun p => p.1 == "size" || p.1 == "name" || p.1 == "content_type") then
      match fields.lookup ("size"), fields.lookup ("name") with
      | some (.num n), some (.str nm) =>
        match fields.lookup ("content_type") with
        | none => some ⟨n, nm, none⟩
        | some .null => some ⟨n, nm, none⟩
        | some (.str t) => some ⟨n, nm, some t⟩
        | some _ => none
      | _, _ => none
    else none
  | _ => none

/-- The uid charset check both HTTP handlers perform (`views/http.py` lines
29-30 and 105-106): every character must be an ASCII letter, a digit or a
hyphen. -/
def validUid (uid : String) : Bool := uid.data.all (fun c => c.isAlphanum || c == '-')

/-- Python's `str.strip()` restricted to the ASCII whitespace Lean's
`Char.isWhitespace` knows; uids never carry the more exotic code points. -/
def pyStrip (l : List Char) : List Char :=
  ((l.dropWhile Char.isWhitespace).reverse.dropWhile Char.isWhitespace).reverse

/-- `FileTransfer._format_uid`: `str(uid).strip().encode('ascii', 'ignore').decode()`
drops non-ASCII characters but performs no charset validation. -/
def format_uid (uid : String) : String :=
  ⟨(pyStrip uid.data).filter (fun c => c.toNat ≤ 0x7F)⟩

/-- What `http_upload` (`views/http.py` lines 20-66) replies, together with
whether transfer state (the metadata key) was created on the way.  `size` is
the declared `Content-Length`; `uidClaimed` tells whether `Transfer.create`
hits an already-claimed uid; `receiverConnects` whether the
`client_connected` wait succeeds before its timeout. -/
structure HttpUploadOutcome where
  status : Nat
  stateCreated : Bool
deriving DecidableEq, Repr

/-- Decision sequence of `http_upload`: uid charset → 400, size over 1 GiB →
413, duplicate uid → 409, receiver timeout → 408, otherwise the upload runs
and the handler replies 200. -/
def http_upload (uid : String) (size : Nat) (uidClaimed receiverConnects : Bool) :
    HttpUploadOutcome :=
  if !validUid uid then ⟨400, false⟩
  else if size > 1024 ^ 3 then ⟨413, false⟩
  else if uidClaimed then ⟨409, false⟩
  else if !receiverConnects then ⟨408, true⟩
  else ⟨200, true⟩

/-- The user-agent substrings treated as link-preview crawlers
(`PREFETCHER_USER_AGENTS` in `views/http.py`). -/
def PREFETCHER_USER_AGENTS : List String :=
  [("whatsapp"), ("facebookexternalhit"), ("twitterbot"), ("slackbot-linkexpanding"),
   ("discordbot"), ("googlebot"), ("bingbot"), ("linkedinbot"), ("pinterestbot"),
   ("telegrambot")]

/-- Bool test for `needle in hay` on character lists. -/
def listContainsSub (needle : List Char) : List Char → Bool
  | [] => needle.isEmpty
  | b :: bs => needle.isPrefixOf (b :: bs) || listContainsSub needle bs

/-- Python's `in` operator on strings. -/
def strContains (hay needle : String) : Bool := listContainsSub needle.data hay.data

/-- Python's `str.lower()` (ASCII part, which is all the handler compares). -/
def strLower (s : String) : String := ⟨s.data.map Char.toLower⟩

/-- The possible replies of `http_download` (`views/http.py` lines 96-149).
`conflict` is listed because the specification promises a 409, but no branch
of the handler produces it. -/
inductive HttpDownloadResponse where
  | badRequest
  | notFound
  | preview
  | downloadPage
  | stream
  | conflict
deriving DecidableEq, Repr

/-- Decision sequence of `http_download`: uid charset → 400, missing metadata
→ 404, crawler user-agent → HTML preview, non-curl without `?download=true` →
HTML download page, otherwise signal `client_connected` and stream the body.
The handler never reads or writes the `receiver_connected` flag, so the
`receiverConnected` argument is deliberately unused: a second concurrent
download also reaches `stream`. -/
def http_download (uid : String) (metadata : Option FileMetadata) (userAgent : String)
    (downloadParam : Bool) (receiverConnected : Bool) : HttpDownloadResponse :=
  if !validUid uid then .badRequest
  else
    match metadata with
    | none => .notFound
    | some _ =>
      let ua := strLower userAgent
      if PREFETCHER_USER_AGENTS.any (fun p => strContains ua p) then .preview
      else if !strContains ua ("curl") && !downloadParam then .downloadPage
      else .stream

/-- Observable outcome of `websocket_upload` (`views/websockets.py` lines
15-62): whether the handler returned with an error text before the transfer
ran, whether transfer state (the metadata key) was created, and under which
uid it was stored. -/
structure WsUploadOutcome where
  rejectedBeforeUpload : Bool
  stateCreated : Bool
  storedUid : Option String
deriving DecidableEq, Repr

/-- Decision sequence of `websocket_upload`: decode the JSON header, create
the transfer, wait for the receiver, then stream.  The handler performs no
uid validation at all; `FileTransfer.create` only runs the uid through
`format_uid`, so the metadata key is created for any uid whose header decodes
and that is not already claimed. -/
def websocket_upload (uid : String) (headerOk uidClaimed receiverConnects : Bool) :
    WsUploadOutcome :=
  if !headerOk then ⟨true, false, none⟩
  else if uidClaimed then ⟨true, false, none⟩
  else if !receiverConnects then ⟨true, true, some (format_uid uid)⟩
  else ⟨false, true, some (format_uid uid)⟩

@[simp]
theorem chunksLen_nil : chunksLen [] = 0 := rfl

@[simp]
theorem chunksLen_cons (c : Chunk) (l : List Chunk) :
    chunksLen (c :: l) = c.length + chunksLen l := by
  simp [chunksLen]

theorem pushAll_eq_reverse_append (cs : List Chunk) :
    ∀ q : List Chunk, pushAll q cs = cs.reverse ++ q := by
  induction cs with
  | nil => intro q; simp [pushAll]
  | cons c rest ih =>
    intro q
    have : pushAll q (c :: rest) = pushAll (c :: q) rest := rfl
    rw [this, ih]
    simp

theorem popAllFuel_eq_reverse (fuel : Nat) :
    ∀ q : List Chunk, q.length ≤ fuel → popAllFuel fuel q = q.reverse := by
  induction fuel with
  | zero =>
    intro q h
    have : q = [] := List.eq_nil_of_length_eq_zero (Nat.le_zero.mp h)
    subst this
    rfl
  | succ n ih =>
    intro q h
    match q with
    | [] => rfl
    | c :: rest =>
      have hlen : (c :: rest).dropLast.length ≤ n := by
        simp only [List.length_dropLast, List.length_cons] at *
        omega
      have hrec := ih _ hlen
      simp only [popAllFuel, get_from_queue, hrec]
      have hsplit := List.dropLast_append_getLast (l := c :: rest) (by simp)
      conv_rhs => rw [← hsplit]
      simp

theorem popAll_eq_reverse (q : List Chunk) : popAll q = q.reverse :=
  popAllFuel_eq_reverse q.length q le_rfl

/-- C7: chunks come back from the queue in exactly the order they were pushed
(`put_in_queue` LPUSHes at the producer side, `get_from_queue` BRPOPs at the
consumer side), and a sentinel pushed after chunk K is returned after chunk K:
draining a queue that received `L ++ [s]` returns `L ++ [s]`. -/
theorem C7_queue_fifo (L : List Chunk) (s : Chunk) :
    popAll (pushAll [] L) = L ∧ popAll (pushAll [] (L ++ [s])) = L ++ [s] := by
  constructor <;> simp [popAll_eq_reverse, pushAll_eq_reverse_append]

theorem collect_upload_aux_spec (size : Nat) (cs : List Chunk) :
    ∀ (b : Nat) (p : List Chunk),
      collect_upload_aux size false false b p cs =
        ⟨p ++ cs.takeWhile (fun c => !c.isEmpty) ++
            [if b + chunksLen (cs.takeWhile (fun c => !c.isEmpty)) < size
             then DEAD_FLAG else DONE_FLAG],
          b + chunksLen (cs.takeWhile (fun c => !c.isEmpty)), false⟩ := by
  induction cs with
  | nil =>
    intro b p
    simp only [collect_upload_aux, List.takeWhile_nil, chunksLen_nil, Nat.add_zero,
      Bool.false_eq_true, if_false, List.append_nil]
    split <;> simp
  | cons c rest ih =>
    intro b p
    by_cases hc : c = []
    · subst hc
      simp only [collect_upload_aux, List.takeWhile_cons, List.isEmpty_nil, Bool.not_true,
        Bool.false_eq_true, if_false, if_true, chunksLen_nil, Nat.add_zero, List.append_nil]
      split <;> simp
    · have hne : (!List.isEmpty c) = true := by
        simp [List.isEmpty_iff]
        exact hc
      rw [show collect_upload_aux size false false b p (c :: rest) =
            collect_upload_aux size false false (b + c.length) (p ++ [c]) rest by
          simp [collect_upload_aux, hc]]
      rw [ih]
      simp [List.takeWhile_cons, hne, List.append_assoc, Nat.add_assoc]

theorem collect_upload_spec (size : Nat) (cs : List Chunk) :
    collect_upload size cs false false =
      ⟨cs.takeWhile (fun c => !c.isEmpty) ++
          [if chunksLen (cs.takeWhile (fun c => !c.isEmpty)) < size
           then DEAD_FLAG else DONE_FLAG],
        chunksLen (cs.takeWhile (fun c => !c.isEmpty)), false⟩ := by
  have h := collect_upload_aux_spec size cs 0 []
  simpa [collect_upload] using h

/-- C4 holds only with the `on_error` call removed: after the stream ends, a
short byte count pushes `DEAD_FLAG` and a complete one pushes `DONE_FLAG`, but
the short-upload `FileTransferError` carries `shutdown=False`, so `on_error`
is never invoked on this path. -/
theorem C4_end_of_stream_sentinels (size : Nat) (cs : List Chunk) :
    (collect_upload size cs false false).pushes =
      cs.takeWhile (fun c => !c.isEmpty) ++
        [if (collect_upload size cs false false).bytes_uploaded < size
         then DEAD_FLAG else DONE_FLAG]
  ∧ (collect_upload size cs false false).onErrorCalled = false := by
  rw [collect_upload_spec]
  exact ⟨rfl, rfl⟩

/-- C4 as stated is false: a stream that ends with fewer bytes than declared
(3 < 10, no interrupt, no disconnect) pushes `DEAD_FLAG` yet the `on_error`
callback is not invoked. -/
theorem C4_counterexample :
    (collect_upload 10 [[1, 2, 3]] false false).bytes_uploaded < 10
  ∧ (collect_upload 10 [[1, 2, 3]] false false).pushes.getLast? = some DEAD_FLAG
  ∧ (collect_upload 10 [[1, 2, 3]] false false).onErrorCalled = false := by
  decide

theorem supply_download_aux_bytes_le (size : Nat) (items : List Chunk) :
    ∀ (b : Nat) (y : List Chunk),
      (supply_download_aux size b y items).bytes_downloaded ≤ b + prefixDataLen items := by
  induction items with
  | nil => intro b y; simp [supply_download_aux, prefixDataLen]
  | cons c rest ih =>
    intro b y
    simp only [supply_download_aux, prefixDataLen]
    by_cases h1 : c = DEAD_FLAG
    · rw [if_pos h1, if_pos (Or.inl h1)]
      simp
    · rw [if_neg h1]
      by_cases h2 : c = DONE_FLAG
      · rw [if_pos h2, if_pos (Or.inr h2)]
        split <;> simp
      · rw [if_neg h2, if_neg (by tauto)]
        have := ih (b + c.length) (y ++ [c])
        omega

theorem prefixDataLen_le_chunksLen (l : List Chunk) : prefixDataLen l ≤ chunksLen l := by
  induction l with
  | nil => simp [prefixDataLen]
  | cons c rest ih =>
    simp only [prefixDataLen, chunksLen_cons]
    split <;> omega

theorem prefixDataLen_take_le (k : Nat) (l : List Chunk) :
    prefixDataLen (l.take k) ≤ prefixDataLen l := by
  induction l generalizing k with
  | nil => simp [List.take_nil, prefixDataLen]
  | cons c rest ih =>
    cases k with
    | zero => simp [prefixDataLen]
    | succ n =>
      simp only [List.take_succ_cons, prefixDataLen]
      split
      · exact le_rfl
      · have := ih n
        omega

theorem prefixDataLen_append_sentinel (T : List Chunk) (s : Chunk)
    (hs : s = DEAD_FLAG ∨ s = DONE_FLAG) :
    prefixDataLen (T ++ [s]) ≤ chunksLen T := by
  induction T with
  | nil => simp [prefixDataLen, hs]
  | cons c rest ih =>
    simp only [List.cons_append, prefixDataLen, chunksLen_cons]
    split
    · exact Nat.zero_le _
    · exact Nat.add_le_add_left ih _

theorem chunksLen_takeWhile_le (p : Chunk → Bool) (cs : List Chunk) :
    chunksLen (cs.takeWhile p) ≤ chunksLen cs := by
  induction cs with
  | nil => simp
  | cons c rest ih =>
    simp only [List.takeWhile_cons, chunksLen_cons]
    split <;> simp <;> omega

/-- C3 holds only without its `bytes_uploaded ≤ file.size` clause.  At any
point of a paired run — the downloader having drained any number `k` of queue
entries that `collect_upload` produced — `bytes_downloaded` never exceeds
`bytes_uploaded`; `bytes_uploaded` is bounded by the number of bytes the
stream yields (not by `file.size`, which the code never enforces); and
`supply_download` never counts more bytes than the queue holds. -/
theorem C3_counter_inequalities (size : Nat) (cs : List Chunk) (k : Nat) (items : List Chunk) :
    (supply_download size ((collect_upload size cs false false).pushes.take k)).bytes_downloaded
        ≤ (collect_upload size cs false false).bytes_uploaded
  ∧ (collect_upload size cs false false).bytes_uploaded ≤ chunksLen cs
  ∧ (supply_download size items).bytes_downloaded ≤ chunksLen items := by
  rw [collect_upload_spec]
  refine ⟨?_, ?_, ?_⟩
  · have h1 := supply_download_aux_bytes_le size
      ((List.takeWhile (fun c => !c.isEmpty) cs ++
        [if chunksLen (List.takeWhile (fun c => !c.isEmpty) cs) < size
         then DEAD_FLAG else DONE_FLAG]).take k) 0 []
    have h2 := prefixDataLen_take_le k
      (List.takeWhile (fun c => !c.isEmpty) cs ++
        [if chunksLen (List.takeWhile (fun c => !c.isEmpty) cs) < size
         then DEAD_FLAG else DONE_FLAG])
    have h3 := prefixDataLen_append_sentinel (List.takeWhile (fun c => !c.isEmpty) cs)
      (if chunksLen (List.takeWhile (fun c => !c.isEmpty) cs) < size
       then DEAD_FLAG else DONE_FLAG)
      (by split <;> simp)
    simp only [supply_download] at *
    omega
  · exact chunksLen_takeWhile_le _ cs
  · have h1 := supply_download_aux_bytes_le size items 0 []
    have h2 := prefixDataLen_le_chunksLen items
    simp only [supply_download] at *
    omega

/-- C3 as stated is false: with a declared size of 1 byte and a stream that
yields a 2-byte chunk, `collect_upload` counts 2 bytes, so
`bytes_uploaded ≤ file.size` is violated. -/
theorem C3_counterexample :
    1 < (collect_upload 1 [[0, 0]] false false).bytes_uploaded := by
  decide

theorem supply_download_aux_dead (size : Nat) (rest : List Chunk) :
    ∀ (pre : List Chunk) (b : Nat) (y : List Chunk),
      (∀ c ∈ pre, c ≠ DEAD_FLAG ∧ c ≠ DONE_FLAG) →
      supply_download_aux size b y (pre ++ DEAD_FLAG :: rest) =
        ⟨y ++ pre, b + chunksLen pre, false, .senderDisconnected⟩ := by
  intro pre
  induction pre with
  | nil => intro b y _; simp [supply_download_aux]
  | cons c pr ih =>
    intro b y h
    have hc := h c (by simp)
    have hrec := ih (b + c.length) (y ++ [c]) (fun x hx => h x (by simp [hx]))
    simp only [List.cons_append, supply_download_aux, hc.1, hc.2, Bool.false_eq_true, if_false]
    exact hrec.trans (by simp [List.append_assoc, Nat.add_assoc])

theorem supply_download_aux_done_short (size : Nat) (rest : List Chunk) :
    ∀ (pre : List Chunk) (b : Nat) (y : List Chunk),
      (∀ c ∈ pre, c ≠ DEAD_FLAG ∧ c ≠ DONE_FLAG) →
      b + chunksLen pre < size →
      supply_download_aux size b y (pre ++ DONE_FLAG :: rest) =
        ⟨y ++ pre, b + chunksLen pre, false, .truncated⟩ := by
  intro pre
  induction pre with
  | nil =>
    intro b y _ hlt
    simp only [chunksLen_nil, Nat.add_zero] at hlt
    simp [supply_download_aux, DEAD_FLAG, DONE_FLAG, hlt]
  | cons c pr ih =>
    intro b y h hlt
    have hc := h c (by simp)
    have hrec := ih (b + c.length) (y ++ [c]) (fun x hx => h x (by simp [hx])) (by
      simp only [chunksLen_cons] at hlt
      omega)
    simp only [List.cons_append, supply_download_aux, hc.1, hc.2, Bool.false_eq_true, if_false]
    exact hrec.trans (by simp [List.append_assoc, Nat.add_assoc])

/-- C2 holds only with the `on_error` call removed: when the queue yields the
DEAD sentinel after sentinel-free payload chunks, the iteration stops with the
sender-disconnected error, and when it yields DONE while the byte count is
still short the iteration stops with the truncated error — but both errors are
`FileTransferError`s whose handler only logs, so `on_error` is not invoked in
either case (it is invoked on the take timeout only). -/
theorem C2_sentinel_errors (size : Nat) (pre rest : List Chunk)
    (hpre : ∀ c ∈ pre, c ≠ DEAD_FLAG ∧ c ≠ DONE_FLAG) :
    supply_download size (pre ++ DEAD_FLAG :: rest) =
      ⟨pre, chunksLen pre, false, .senderDisconnected⟩
  ∧ (chunksLen pre < size →
      supply_download size (pre ++ DONE_FLAG :: rest) =
        ⟨pre, chunksLen pre, false, .truncated⟩) := by
  constructor
  · have h := supply_download_aux_dead size rest pre 0 [] hpre
    simpa [supply_download] using h
  · intro hlt
    have h := supply_download_aux_done_short size rest pre 0 [] hpre (by simpa using hlt)
    simpa [supply_download] using h

theorem C2_sentinel_errors_witness :
    supply_download 5 ([[1]] ++ DEAD_FLAG :: []) = ⟨[[1]], 1, false, .senderDisconnected⟩
  ∧ supply_download 5 ([[1]] ++ DONE_FLAG :: []) = ⟨[[1]], 1, false, .truncated⟩ := by
  have h := C2_sentinel_errors 5 [[1]] [] (by decide)
  exact ⟨h.1, h.2 (by decide)⟩

/-- C2 as stated is false: on the DEAD sentinel (and on a short DONE) the
iteration stops, but the `on_error` callback is not invoked. -/
theorem C2_counterexample :
    (supply_download 1 [DEAD_FLAG]).outcome = .senderDisconnected
  ∧ (supply_download 1 [DEAD_FLAG]).onErrorCalled = false
  ∧ (supply_download 2 [[7], DONE_FLAG]).outcome = .truncated
  ∧ (supply_download 2 [[7], DONE_FLAG]).onErrorCalled = false := by
  decide

/-- C8: claim-and-verify on the metadata key.  On an unclaimed uid the call
succeeds and stores the metadata with the 300 s TTL; on a uid already holding
a value different from the fresh challenge the call fails and leaves the
store — in particular the stored metadata — unchanged. -/
theorem C8_set_metadata_claim (s : RStore) (uid challenge metadata v : String) :
    (rget s (RKey.transfer uid ("metadata")) = none →
      (set_metadata s uid challenge metadata).2 = true ∧
      (set_metadata s uid challenge metadata).1.lookup (RKey.transfer uid ("metadata"))
        = some ⟨metadata, some 300⟩)
  ∧ (rget s (RKey.transfer uid ("metadata")) = some v → v ≠ challenge →
      (set_metadata s uid challenge metadata).2 = false ∧
      (set_metadata s uid challenge metadata).1 = s) := by
  constructor
  · intro h
    have hl : s.lookup (RKey.transfer uid ("metadata")) = none := by
      simpa [rget] using h
    simp [set_metadata, rsetnx, rset, rget, hl, List.lookup]
  · intro h hv
    obtain ⟨e, he, hev⟩ := Option.map_eq_some'.mp (by simpa [rget] using h)
    have hne2 : rget s (RKey.transfer uid ("metadata")) ≠ some challenge := by
      rw [h]
      simp [hv]
    simp [set_metadata, rsetnx, he, hne2]

theorem C8_set_metadata_claim_witness :
    ((set_metadata [] ("u") ("ch") ("meta")).2 = true ∧
      (set_metadata [] ("u") ("ch") ("meta")).1.lookup (RKey.transfer ("u") ("metadata"))
        = some ⟨("meta"), some 300⟩)
  ∧ ((set_metadata [(RKey.transfer ("u") ("metadata"), ⟨("old"), none⟩)]
        ("u") ("ch") ("meta")).2 = false ∧
      (set_metadata [(RKey.transfer ("u") ("metadata"), ⟨("old"), none⟩)]
        ("u") ("ch") ("meta")).1
        = [(RKey.transfer ("u") ("metadata"), ⟨("old"), none⟩)]) :=
  ⟨(C8_set_metadata_claim [] ("u") ("ch") ("meta") ("old")).1 (by decide),
   (C8_set_metadata_claim [(RKey.transfer ("u") ("metadata"), ⟨("old"), none⟩)]
      ("u") ("ch") ("meta") ("old")).2 (by decide) (by decide)⟩

theorem rscanTransfer_rdel_eq_nil (uid : String) (s : RStore) (ks : List RKey)
    (h : ∀ k, k ∈ s.map Prod.fst → isTransferKeyOf uid k = true → k ∈ ks) :
    rscanTransfer (rdel s ks) uid = [] := by
  rw [rscanTransfer, List.filter_eq_nil_iff]
  intro k hk
  obtain ⟨p, hp, rfl⟩ := List.mem_map.mp hk
  have hp' := List.mem_filter.mp hp
  intro hT
  have hnot : p.1 ∉ ks := by simpa using hp'.2
  exact hnot (h p.1 (List.mem_map_of_mem _ hp'.1) hT)

/-- C9: cleanup is single-flight and idempotent.  With the lock free, the
first call deletes every `transfer:<uid>:*` key and returns their number;
a second call under the still-held lock (fresh challenge `c2 ≠ c1`) changes
nothing and returns 0, so cleanup ∘ cleanup = cleanup. -/
theorem C9_cleanup_single_flight (s : RStore) (uid c1 c2 : String)
    (h0 : rget s (RKey.cleanupLock uid) = none) (hne : c2 ≠ c1) :
    (cleanup s uid c1).2 = (rscanTransfer s uid).length
  ∧ rscanTransfer (cleanup s uid c1).1 uid = []
  ∧ cleanup (cleanup s uid c1).1 uid c2 = ((cleanup s uid c1).1, 0) := by
  have hl : s.lookup (RKey.cleanupLock uid) = none := by
    simpa [rget] using h0
  have hs1 : rsetnx s (RKey.cleanupLock uid) c1 (some 60)
      = (RKey.cleanupLock uid, ⟨c1, some 60⟩) :: s := by
    simp [rsetnx, hl]
  have hkeys : rscanTransfer ((RKey.cleanupLock uid, ⟨c1, some 60⟩) :: s) uid
      = rscanTransfer s uid := by
    simp [rscanTransfer, isTransferKeyOf]
  have hLnotmem : ∀ t : RStore, RKey.cleanupLock uid ∉ rscanTransfer t uid := by
    intro t hmem
    have := (List.mem_filter.mp hmem).2
    simp [isTransferKeyOf] at this
  have hsecond : ∀ t : RStore, t.lookup (RKey.cleanupLock uid) = some ⟨c1, some 60⟩ →
      cleanup t uid c2 = (t, 0) := by
    intro t ht
    have hrg : rget t (RKey.cleanupLock uid) = some c1 := by
      simp [rget, ht]
    simp [cleanup, cleanup_started, rsetnx, ht, hrg, Ne.symm hne]
  have hfirst : cleanup s uid c1 =
      (if rscanTransfer s uid = []
       then (RKey.cleanupLock uid, ⟨c1, some 60⟩) :: s
       else rdel ((RKey.cleanupLock uid, ⟨c1, some 60⟩) :: s) (rscanTransfer s uid),
       if rscanTransfer s uid = [] then 0 else (rscanTransfer s uid).length) := by
    have hrg : rget ((RKey.cleanupLock uid, ⟨c1, some 60⟩) :: s) (RKey.cleanupLock uid)
        = some c1 := by
      simp [rget, List.lookup]
    simp only [cleanup, cleanup_started, hs1, hkeys, hrg]
    simp [List.isEmpty_iff]
    split <;> simp
  by_cases hemp : rscanTransfer s uid = []
  · rw [hfirst]
    simp only [hemp, if_pos rfl]
    refine ⟨by simp, by simpa [hkeys] using hemp, ?_⟩
    exact hsecond _ (by simp [List.lookup])
  · rw [hfirst]
    simp only [if_neg hemp]
    have hdel : rscanTransfer
        (rdel ((RKey.cleanupLock uid, ⟨c1, some 60⟩) :: s) (rscanTransfer s uid)) uid = [] := by
      apply rscanTransfer_rdel_eq_nil
      intro k hk hT
      simp only [List.map_cons, List.mem_cons] at hk
      rcases hk with hk | hk
      · subst hk
        simp [isTransferKeyOf] at hT
      · exact List.mem_filter.mpr ⟨hk, hT⟩
    refine ⟨by trivial, hdel, ?_⟩
    apply hsecond
    have hkeep : decide (RKey.cleanupLock uid ∉ rscanTransfer s uid) = true := by
      simp only [decide_eq_true_eq]
      exact hLnotmem s
    simp [rdel, List.filter, hkeep, List.lookup]

theorem C9_cleanup_single_flight_witness :
    (cleanup [(RKey.transfer ("u") ("metadata"), ⟨("m"), some 300⟩),
              (RKey.transfer ("u") ("queue"), ⟨("q"), none⟩),
              (RKey.completed ("u"), ⟨("1"), some 300⟩)] ("u") ("a")).2 = 2
  ∧ rscanTransfer (cleanup [(RKey.transfer ("u") ("metadata"), ⟨("m"), some 300⟩),
              (RKey.transfer ("u") ("queue"), ⟨("q"), none⟩),
              (RKey.completed ("u"), ⟨("1"), some 300⟩)] ("u") ("a")).1 ("u") = []
  ∧ cleanup (cleanup [(RKey.transfer ("u") ("metadata"), ⟨("m"), some 300⟩),
              (RKey.transfer ("u") ("queue"), ⟨("q"), none⟩),
              (RKey.completed ("u"), ⟨("1"), some 300⟩)] ("u") ("a")).1 ("u") ("b")
      = ((cleanup [(RKey.transfer ("u") ("metadata"), ⟨("m"), some 300⟩),
              (RKey.transfer ("u") ("queue"), ⟨("q"), none⟩),
              (RKey.completed ("u"), ⟨("1"), some 300⟩)] ("u") ("a")).1, 0) := by
  have h := C9_cleanup_single_flight
    [(RKey.transfer ("u") ("metadata"), ⟨("m"), some 300⟩),
     (RKey.transfer ("u") ("queue"), ⟨("q"), none⟩),
     (RKey.completed ("u"), ⟨("1"), some 300⟩)] ("u") ("a") ("b") (by decide) (by decide)
  exact ⟨h.1.trans (by decide), h.2.1, h.2.2⟩

/-- C10: deserialising the serialisation of any `FileMetadata` value gives the
value back: `from_json (to_json m) = m`. -/
theorem C10_metadata_roundtrip (m : FileMetadata) :
    FileMetadata.from_json (FileMetadata.to_json m) = some m := by
  cases m with
  | mk size name ct => cases ct <;> rfl

/-- C1 names behaviour the code does not have: `http_download` never touches
the `receiver_connected` flag and has no 409 branch.  A second concurrent
curl GET with `?download=true` for a uid whose receiver slot is already
claimed is answered with the stream, not with a conflict. -/
theorem C1_second_download_not_conflict :
    http_download ("abc") (some ⟨100, ("a.bin"), some ("application/octet-stream")⟩)
        ("curl/8.5.0") true true = HttpDownloadResponse.stream
  ∧ http_download ("abc") (some ⟨100, ("a.bin"), some ("application/octet-stream")⟩)
        ("curl/8.5.0") true true ≠ HttpDownloadResponse.conflict := by
  constructor
  · rfl
  · decide

/-- C5 names behaviour the code does not have: `escape_filename` is only the
latin-1/utf-8 round-trip, so the characters the specification (and the unit
test `test_file_metadata_name_escaping`) expect to be replaced by spaces are
kept verbatim, and no length bound is enforced. -/
theorem C5_escape_filename_keeps_colon :
    escape_filename ("file:name.txt") = ("file:name.txt")
  ∧ (':') ∈ (escape_filename ("file:name.txt")).data
  ∧ escape_filename ("") = ("") := by
  refine ⟨rfl, by decide, rfl⟩

/-- C6 holds for the HTTP handlers only: a uid with a character outside
`[A-Za-z0-9-]` is rejected with 400 before any state is created, both on PUT
and on GET.  The WebSocket endpoint, however, performs no uid validation:
with a decodable header and an unclaimed uid it proceeds and creates the
metadata key under the merely ASCII-filtered uid. -/
theorem C6_invalid_uid_rejected_http_only (uid : String) (h : validUid uid = false)
    (size : Nat) (uidClaimed receiverConnects : Bool) (meta : Option FileMetadata)
    (ua : String) (dl rc : Bool) :
    http_upload uid size uidClaimed receiverConnects = ⟨400, false⟩
  ∧ http_download uid meta ua dl rc = HttpDownloadResponse.badRequest
  ∧ websocket_upload uid true false true = ⟨false, true, some (format_uid uid)⟩ := by
  refine ⟨?_, ?_, rfl⟩
  · simp [http_upload, h]
  · cases meta <;> simp [http_download, h]

theorem C6_invalid_uid_rejected_http_only_witness :
    http_upload ("bad id") 100 false true = ⟨400, false⟩
  ∧ http_download ("bad id") none ("curl") true false = HttpDownloadResponse.badRequest
  ∧ websocket_upload ("bad id") true false true = ⟨false, true, some (format_uid ("bad id"))⟩ :=
  C6_invalid_uid_rejected_http_only ("bad id") (by decide) 100 false true none ("curl")
    true false

/-- C6 as stated is false for the WebSocket ingress: `/send/bad id` is not
closed at ingress — the handler proceeds and creates transfer state under the
uid `bad id` (the space is ASCII, so even `format_uid` keeps it). -/
theorem C6_counterexample :
    validUid ("bad id") = false
  ∧ websocket_upload ("bad id") true false true = ⟨false, true, some ("bad id")⟩ := by
  decide

end Transit
